import Mathlib

/-!
Verification of the `with-str-bytes` crate (`src/lib.rs`).

The crate exposes a single operation, `with_str_bytes`, which hands a
caller-supplied closure a mutable view of a UTF-8 string's bytes and, via a
drop guard, restores the "valid UTF-8" invariant on every exit path:

* if the closure panicked, every byte of the view is overwritten with `0`
  and the original panic keeps propagating unchanged;
* if the closure returned normally, the bytes are re-validated with
  `core::str::from_utf8`; on failure every byte from the error's
  `valid_up_to()` offset onward is overwritten with `0` and the guard
  panics, reporting the `Utf8Error`.

The embedding below models bytes as `Nat` (always `< 256` in real buffers;
the validator only compares, never computes), the byte buffer as
`List Nat`, the closure as a function returning either a normal result
together with the bytes it left in the view, or a panic payload together
with the bytes it left in the view.  `run_utf8_validation` is a faithful
model of Rust core's UTF-8 validation loop (`core/src/str/validations.rs`),
which `str::from_utf8` calls: the index-based loop with its `old_offset` /
`err!` / `next!` macros becomes a structural recursion that validates one
encoded character at the head and shifts the error offset of the recursive
call by the width just consumed; `next!` hitting the end of input becomes
the `[]` cases with `error_len = none` ("unexpected end of input").
-/

namespace WithStrBytes

/-- Model of `core::str::Utf8Error`: `valid_up_to` is the length of the
longest valid prefix, `error_len` the length of the invalid byte sequence
(`none` when the input ended with an incomplete sequence). -/
structure Utf8Error where
  valid_up_to : Nat
  error_len : Option Nat
  deriving DecidableEq, Repr

/-- A UTF-8 continuation byte, Rust core's `utf8_is_cont_byte`
(`b as i8 < -64`, i.e. the top two bits are `10`). -/
def isCont (b : Nat) : Bool := decide (0x80 ≤ b ∧ b < 0xC0)

/-- Allowed second byte of a three-byte sequence whose first byte is `b`,
from the match in Rust core's `run_utf8_validation`:
`(0xE0, 0xA0..=0xBF) | (0xE1..=0xEC, 0x80..=0xBF) | (0xED, 0x80..=0x9F) |
(0xEE..=0xEF, 0x80..=0xBF)`. -/
def valid3Second (b c : Nat) : Bool :=
  decide ((b = 0xE0 ∧ 0xA0 ≤ c ∧ c ≤ 0xBF) ∨
          (0xE1 ≤ b ∧ b ≤ 0xEC ∧ 0x80 ≤ c ∧ c ≤ 0xBF) ∨
          (b = 0xED ∧ 0x80 ≤ c ∧ c ≤ 0x9F) ∨
          (0xEE ≤ b ∧ b ≤ 0xEF ∧ 0x80 ≤ c ∧ c ≤ 0xBF))

/-- Allowed second byte of a four-byte sequence whose first byte is `b`,
from the match in Rust core's `run_utf8_validation`:
`(0xF0, 0x90..=0xBF) | (0xF1..=0xF3, 0x80..=0xBF) | (0xF4, 0x80..=0x8F)`. -/
def valid4Second (b c : Nat) : Bool :=
  decide ((b = 0xF0 ∧ 0x90 ≤ c ∧ c ≤ 0xBF) ∨
          (0xF1 ≤ b ∧ b ≤ 0xF3 ∧ 0x80 ≤ c ∧ c ≤ 0xBF) ∨
          (b = 0xF4 ∧ 0x80 ≤ c ∧ c ≤ 0x8F))

/-- Shift the error offset of a validation result of a suffix by the `w`
bytes consumed before it, mirroring Rust's `old_offset` bookkeeping. -/
def shiftErr (w : Nat) : Except Utf8Error Unit → Except Utf8Error Unit
  | .ok u => .ok u
  | .error e => .error ⟨w + e.valid_up_to, e.error_len⟩

/-- Model of Rust core's `run_utf8_validation`, the validator behind
`str::from_utf8`.  The first-byte dispatch follows `utf8_char_width`:
`0x00..=0x7F` width 1, `0x80..=0xC1` width 0 (invalid), `0xC2..=0xDF`
width 2, `0xE0..=0xEF` width 3, `0xF0..=0xF4` width 4, `0xF5..=0xFF`
width 0 (invalid).  Width 0 reports `error_len = some 1`; a missing
continuation byte reports `error_len = none`; a wrong byte at position
`i` of the sequence reports `error_len = some i`. -/
def run_utf8_validation : List Nat → Except Utf8Error Unit
  | [] => .ok ()
  | b :: rest =>
    if b < 0x80 then
      shiftErr 1 (run_utf8_validation rest)
    else if b < 0xC2 then
      .error ⟨0, some 1⟩
    else if b < 0xE0 then
      match rest with
      | [] => .error ⟨0, none⟩
      | c1 :: rest2 =>
        if isCont c1 then shiftErr 2 (run_utf8_validation rest2)
        else .error ⟨0, some 1⟩
    else if b < 0xF0 then
      match rest with
      | [] => .error ⟨0, none⟩
      | c1 :: rest2 =>
        if valid3Second b c1 then
          match rest2 with
          | [] => .error ⟨0, none⟩
          | c2 :: rest3 =>
            if isCont c2 then shiftErr 3 (run_utf8_validation rest3)
            else .error ⟨0, some 2⟩
        else .error ⟨0, some 1⟩
    else if b < 0xF5 then
      match rest with
      | [] => .error ⟨0, none⟩
      | c1 :: rest2 =>
        if valid4Second b c1 then
          match rest2 with
          | [] => .error ⟨0, none⟩
          | c2 :: rest3 =>
            if isCont c2 then
              match rest3 with
              | [] => .error ⟨0, none⟩
              | c3 :: rest4 =>
                if isCont c3 then shiftErr 4 (run_utf8_validation rest4)
                else .error ⟨0, some 3⟩
            else .error ⟨0, some 2⟩
        else .error ⟨0, some 1⟩
    else
      .error ⟨0, some 1⟩

/-- Result of one invocation of the caller-supplied closure `f`: it either
returns normally with a value, or panics with a payload; in both cases
`bytes` are the contents it left in the mutable view. -/
inductive TransformResult (R : Type) where
  | ret (bytes : List Nat) (value : R)
  | panicked (bytes : List Nat) (payload : String)
  deriving DecidableEq

/-- How one call of `with_str_bytes` ends: a normal return carrying the
closure's value, the guard's invariant-violation panic carrying the
`Utf8Error` data, or the closure's own panic propagating unchanged. -/
inductive Outcome (R : Type) where
  | success (value : R)
  | invalidUtf8 (valid_up_to : Nat) (error_len : Option Nat)
  | panicked (payload : String)
  deriving DecidableEq

/-- Model of `s.as_bytes_mut()`: the mutable byte view over the string's
own storage, same length, no copy.  In the embedding the view simply is
the byte list itself. -/
def viewOf (s : List Nat) : List Nat := s

/-- Model of `with_str_bytes` (`src/lib.rs`, lines 38-68).  The closure
`f` runs on the byte view; then the `Guard`'s `drop` runs:

* `panicking = true` (the closure panicked): every byte of the view is
  set to `0` and the closure's panic is the call's outcome;
* `panicking = false`: `str::from_utf8` re-validates the bytes; on `Ok`
  nothing is written and the closure's value is returned; on `Err e` the
  bytes from `e.valid_up_to()` on are set to `0` and the guard panics
  with the error. -/
def with_str_bytes {R : Type} (s : List Nat) (f : List Nat → TransformResult R) :
    Outcome R × List Nat :=
  match f (viewOf s) with
  | .panicked bytes payload => (.panicked payload, List.replicate bytes.length 0)
  | .ret bytes value =>
    match run_utf8_validation bytes with
    | .ok _ => (.success value, bytes)
    | .error e =>
      (.invalidUtf8 e.valid_up_to e.error_len,
       bytes.take e.valid_up_to ++ List.replicate (bytes.length - e.valid_up_to) 0)

/-- A closure representable in Rust cannot change the length of the
`&mut [u8]` view: whatever bytes it leaves have the length of the bytes
it was given. -/
def LengthPreserving {R : Type} (f : List Nat → TransformResult R) : Prop :=
  ∀ s : List Nat,
    match f s with
    | .ret bytes _ => bytes.length = s.length
    | .panicked bytes _ => bytes.length = s.length

/-- a shifted validation result is `ok` exactly when the unshifted one is. -/
theorem shiftErr_eq_ok {w : Nat} {x : Except Utf8Error Unit} :
    shiftErr w x = .ok () ↔ x = .ok () := by
  cases x with
  | ok u => cases u; simp [shiftErr]
  | error e => simp [shiftErr]

/-- a shifted validation result is an error exactly when the unshifted one
is, with the offset moved by `w`. -/
theorem shiftErr_eq_error {w : Nat} {x : Except Utf8Error Unit} {e : Utf8Error} :
    shiftErr w x = .error e ↔
      ∃ e', x = .error e' ∧ e = ⟨w + e'.valid_up_to, e'.error_len⟩ := by
  cases x with
  | ok u => simp [shiftErr]
  | error e' => simp [shiftErr, eq_comm]

/-- unfolding: an ASCII byte consumes width 1. -/
theorem run_cons1 {b : Nat} (l : List Nat) (h : b < 0x80) :
    run_utf8_validation (b :: l) = shiftErr 1 (run_utf8_validation l) := by
  rcases l with _ | ⟨c1, _ | ⟨c2, _ | ⟨c3, l3⟩⟩⟩ <;> simp [run_utf8_validation, h]

/-- unfolding: a two-byte head with a continuation byte consumes width 2. -/
theorem run_cons2 {b c1 : Nat} (l : List Nat) (h1 : ¬ b < 0xC2) (h2 : b < 0xE0)
    (hc : isCont c1 = true) :
    run_utf8_validation (b :: c1 :: l) = shiftErr 2 (run_utf8_validation l) := by
  have h0 : ¬ b < 0x80 := by omega
  rcases l with _ | ⟨c2, _ | ⟨c3, l3⟩⟩ <;> simp [run_utf8_validation, h0, h1, h2, hc]

/-- unfolding: a three-byte head with matching tail bytes consumes width 3. -/
theorem run_cons3 {b c1 c2 : Nat} (l : List Nat) (h1 : ¬ b < 0xE0) (h2 : b < 0xF0)
    (hv : valid3Second b c1 = true) (hc : isCont c2 = true) :
    run_utf8_validation (b :: c1 :: c2 :: l) = shiftErr 3 (run_utf8_validation l) := by
  have h0 : ¬ b < 0x80 := by omega
  have h0a : ¬ b < 0xC2 := by omega
  rcases l with _ | ⟨c3, l3⟩ <;> simp [run_utf8_validation, h0, h0a, h1, h2, hv, hc]

/-- unfolding: a four-byte head with matching tail bytes consumes width 4. -/
theorem run_cons4 {b c1 c2 c3 : Nat} (l : List Nat) (h1 : ¬ b < 0xF0) (h2 : b < 0xF5)
    (hv : valid4Second b c1 = true) (hc2 : isCont c2 = true) (hc3 : isCont c3 = true) :
    run_utf8_validation (b :: c1 :: c2 :: c3 :: l) = shiftErr 4 (run_utf8_validation l) := by
  have h0 : ¬ b < 0x80 := by omega
  have h0a : ¬ b < 0xC2 := by omega
  have h0b : ¬ b < 0xE0 := by omega
  simp [run_utf8_validation, h0, h0a, h0b, h1, h2, hv, hc2, hc3]

/-- unfolding: a byte in `0x80..=0xC1` is an invalid first byte. -/
theorem run_err_w0 {b : Nat} (l : List Nat) (h1 : ¬ b < 0x80) (h2 : b < 0xC2) :
    run_utf8_validation (b :: l) = .error ⟨0, some 1⟩ := by
  rcases l with _ | ⟨c1, _ | ⟨c2, _ | ⟨c3, l3⟩⟩⟩ <;> simp [run_utf8_validation, h1, h2]

/-- unfolding: a byte in `0xF5..=0xFF` is an invalid first byte. -/
theorem run_err_hi {b : Nat} (l : List Nat) (h1 : ¬ b < 0xF5) :
    run_utf8_validation (b :: l) = .error ⟨0, some 1⟩ := by
  have h0 : ¬ b < 0x80 := by omega
  have h0a : ¬ b < 0xC2 := by omega
  have h0b : ¬ b < 0xE0 := by omega
  have h0c : ¬ b < 0xF0 := by omega
  rcases l with _ | ⟨c1, _ | ⟨c2, _ | ⟨c3, l3⟩⟩⟩ <;>
    simp [run_utf8_validation, h0, h0a, h0b, h0c, h1]

/-- unfolding: a two-byte head at the end of input is incomplete. -/
theorem run_err2_end {b : Nat} (h1 : ¬ b < 0xC2) (h2 : b < 0xE0) :
    run_utf8_validation [b] = .error ⟨0, none⟩ := by
  have h0 : ¬ b < 0x80 := by omega
  simp [run_utf8_validation, h0, h1, h2]

/-- unfolding: a two-byte head followed by a non-continuation byte. -/
theorem run_err2_bad {b c1 : Nat} (l : List Nat) (h1 : ¬ b < 0xC2) (h2 : b < 0xE0)
    (hc : ¬ isCont c1 = true) :
    run_utf8_validation (b :: c1 :: l) = .error ⟨0, some 1⟩ := by
  have h0 : ¬ b < 0x80 := by omega
  rcases l with _ | ⟨c2, _ | ⟨c3, l3⟩⟩ <;> simp [run_utf8_validation, h0, h1, h2, hc]

/-- unfolding: a three-byte head at the end of input is incomplete. -/
theorem run_err3_end1 {b : Nat} (h1 : ¬ b < 0xE0) (h2 : b < 0xF0) :
    run_utf8_validation [b] = .error ⟨0, none⟩ := by
  have h0 : ¬ b < 0x80 := by omega
  have h0a : ¬ b < 0xC2 := by omega
  simp [run_utf8_validation, h0, h0a, h1, h2]

/-- unfolding: a three-byte head with an invalid second byte. -/
theorem run_err3_bad1 {b c1 : Nat} (l : List Nat) (h1 : ¬ b < 0xE0) (h2 : b < 0xF0)
    (hv : ¬ valid3Second b c1 = true) :
    run_utf8_validation (b :: c1 :: l) = .error ⟨0, some 1⟩ := by
  have h0 : ¬ b < 0x80 := by omega
  have h0a : ¬ b < 0xC2 := by omega
  rcases l with _ | ⟨c2, _ | ⟨c3, l3⟩⟩ <;> simp [run_utf8_validation, h0, h0a, h1, h2, hv]

/-- unfolding: a three-byte head cut off after its second byte. -/
theorem run_err3_end2 {b c1 : Nat} (h1 : ¬ b < 0xE0) (h2 : b < 0xF0)
    (hv : valid3Second b c1 = true) :
    run_utf8_validation [b, c1] = .error ⟨0, none⟩ := by
  have h0 : ¬ b < 0x80 := by omega
  have h0a : ¬ b < 0xC2 := by omega
  simp [run_utf8_validation, h0, h0a, h1, h2, hv]

/-- unfolding: a three-byte head with a bad third byte. -/
theorem run_err3_bad2 {b c1 c2 : Nat} (l : List Nat) (h1 : ¬ b < 0xE0) (h2 : b < 0xF0)
    (hv : valid3Second b c1 = true) (hc : ¬ isCont c2 = true) :
    run_utf8_validation (b :: c1 :: c2 :: l) = .error ⟨0, some 2⟩ := by
  have h0 : ¬ b < 0x80 := by omega
  have h0a : ¬ b < 0xC2 := by omega
  rcases l with _ | ⟨c3, l3⟩ <;> simp [run_utf8_validation, h0, h0a, h1, h2, hv, hc]

/-- unfolding: a four-byte head at the end of input is incomplete. -/
theorem run_err4_end1 {b : Nat} (h1 : ¬ b < 0xF0) (h2 : b < 0xF5) :
    run_utf8_validation [b] = .error ⟨0, none⟩ := by
  have h0 : ¬ b < 0x80 := by omega
  have h0a : ¬ b < 0xC2 := by omega
  have h0b : ¬ b < 0xE0 := by omega
  simp [run_utf8_validation, h0, h0a, h0b, h1, h2]

/-- unfolding: a four-byte head with an invalid second byte. -/
theorem run_err4_bad1 {b c1 : Nat} (l : List Nat) (h1 : ¬ b < 0xF0) (h2 : b < 0xF5)
    (hv : ¬ valid4Second b c1 = true) :
    run_utf8_validation (b :: c1 :: l) = .error ⟨0, some 1⟩ := by
  have h0 : ¬ b < 0x80 := by omega
  have h0a : ¬ b < 0xC2 := by omega
  have h0b : ¬ b < 0xE0 := by omega
  rcases l with _ | ⟨c2, _ | ⟨c3, l3⟩⟩ <;>
    simp [run_utf8_validation, h0, h0a, h0b, h1, h2, hv]

/-- unfolding: a four-byte head cut off after its second byte. -/
theorem run_err4_end2 {b c1 : Nat} (h1 : ¬ b < 0xF0) (h2 : b < 0xF5)
    (hv : valid4Second b c1 = true) :
    run_utf8_validation [b, c1] = .error ⟨0, none⟩ := by
  have h0 : ¬ b < 0x80 := by omega
  have h0a : ¬ b < 0xC2 := by omega
  have h0b : ¬ b < 0xE0 := by omega
  simp [run_utf8_validation, h0, h0a, h0b, h1, h2, hv]

/-- unfolding: a four-byte head with a bad third byte. -/
theorem run_err4_bad2 {b c1 c2 : Nat} (l : List Nat) (h1 : ¬ b < 0xF0) (h2 : b < 0xF5)
    (hv : valid4Second b c1 = true) (hc : ¬ isCont c2 = true) :
    run_utf8_validation (b :: c1 :: c2 :: l) = .error ⟨0, some 2⟩ := by
  have h0 : ¬ b < 0x80 := by omega
  have h0a : ¬ b < 0xC2 := by omega
  have h0b : ¬ b < 0xE0 := by omega
  rcases l with _ | ⟨c3, l3⟩ <;>
    simp [run_utf8_validation, h0, h0a, h0b, h1, h2, hv, hc]

/-- unfolding: a four-byte head cut off after its third byte. -/
theorem run_err4_end3 {b c1 c2 : Nat} (h1 : ¬ b < 0xF0) (h2 : b < 0xF5)
    (hv : valid4Second b c1 = true) (hc : isCont c2 = true) :
    run_utf8_validation [b, c1, c2] = .error ⟨0, none⟩ := by
  have h0 : ¬ b < 0x80 := by omega
  have h0a : ¬ b < 0xC2 := by omega
  have h0b : ¬ b < 0xE0 := by omega
  simp [run_utf8_validation, h0, h0a, h0b, h1, h2, hv, hc]

/-- unfolding: a four-byte head with a bad fourth byte. -/
theorem run_err4_bad3 {b c1 c2 c3 : Nat} (l : List Nat) (h1 : ¬ b < 0xF0) (h2 : b < 0xF5)
    (hv : valid4Second b c1 = true) (hc2 : isCont c2 = true) (hc3 : ¬ isCont c3 = true) :
    run_utf8_validation (b :: c1 :: c2 :: c3 :: l) = .error ⟨0, some 3⟩ := by
  have h0 : ¬ b < 0x80 := by omega
  have h0a : ¬ b < 0xC2 := by omega
  have h0b : ¬ b < 0xE0 := by omega
  simp [run_utf8_validation, h0, h0a, h0b, h1, h2, hv, hc2, hc3]


/-- a list of zero bytes is valid UTF-8 (each `0x00` is a one-byte char). -/
theorem replicate_zero_valid (n : Nat) :
    run_utf8_validation (List.replicate n 0) = .ok () := by
  induction n with
  | zero => rfl
  | succ n ih =>
    rw [List.replicate_succ, run_cons1 _ (by omega), ih]
    rfl

/-- concatenating two valid byte lists yields a valid byte list. -/
theorem valid_append {l1 l2 : List Nat} (h1 : run_utf8_validation l1 = .ok ())
    (h2 : run_utf8_validation l2 = .ok ()) :
    run_utf8_validation (l1 ++ l2) = .ok () := by
  induction l1 using run_utf8_validation.induct <;>
    simp_all [run_cons1, run_cons2, run_cons3, run_cons4, run_err_w0, run_err_hi,
      run_err2_end, run_err2_bad, run_err3_end1, run_err3_bad1, run_err3_end2,
      run_err3_bad2, run_err4_end1, run_err4_bad1, run_err4_end2, run_err4_bad2,
      run_err4_end3, run_err4_bad3, shiftErr_eq_ok]

/-- the error offset reported by the validator never exceeds the input
length. -/
theorem error_valid_up_to_le (l : List Nat) :
    ∀ e : Utf8Error, run_utf8_validation l = .error e → e.valid_up_to ≤ l.length := by
  induction l using run_utf8_validation.induct with
  | case1 =>
    intro e h
    simp [run_utf8_validation] at h
  | case2 b rest hb ih =>
    intro e h
    rw [run_cons1 _ hb, shiftErr_eq_error] at h
    obtain ⟨e2, he2, rfl⟩ := h
    have hle := ih e2 he2
    show 1 + e2.valid_up_to ≤ (b :: rest).length
    simp only [List.length_cons]
    omega
  | case3 b rest h1 h2 =>
    intro e h
    rw [run_err_w0 _ h1 h2] at h
    injection h with h
    subst h
    exact Nat.zero_le _
  | case4 b h1 h2 h3 =>
    intro e h
    rw [run_err2_end h2 h3] at h
    injection h with h
    subst h
    exact Nat.zero_le _
  | case5 b h1 h2 h3 c1 rest hc ih =>
    intro e h
    rw [run_cons2 _ h2 h3 hc, shiftErr_eq_error] at h
    obtain ⟨e2, he2, rfl⟩ := h
    have hle := ih e2 he2
    show 2 + e2.valid_up_to ≤ (b :: c1 :: rest).length
    simp only [List.length_cons]
    omega
  | case6 b h1 h2 h3 c1 rest hc =>
    intro e h
    rw [run_err2_bad _ h2 h3 hc] at h
    injection h with h
    subst h
    exact Nat.zero_le _
  | case7 b h1 h2 h3 h4 =>
    intro e h
    rw [run_err3_end1 h3 h4] at h
    injection h with h
    subst h
    exact Nat.zero_le _
  | case8 b h1 h2 h3 h4 c1 hv =>
    intro e h
    rw [run_err3_end2 h3 h4 hv] at h
    injection h with h
    subst h
    exact Nat.zero_le _
  | case9 b h1 h2 h3 h4 c1 hv c2 rest hc ih =>
    intro e h
    rw [run_cons3 _ h3 h4 hv hc, shiftErr_eq_error] at h
    obtain ⟨e2, he2, rfl⟩ := h
    have hle := ih e2 he2
    show 3 + e2.valid_up_to ≤ (b :: c1 :: c2 :: rest).length
    simp only [List.length_cons]
    omega
  | case10 b h1 h2 h3 h4 c1 hv c2 rest hc =>
    intro e h
    rw [run_err3_bad2 _ h3 h4 hv hc] at h
    injection h with h
    subst h
    exact Nat.zero_le _
  | case11 b h1 h2 h3 h4 c1 rest hv =>
    intro e h
    rw [run_err3_bad1 _ h3 h4 hv] at h
    injection h with h
    subst h
    exact Nat.zero_le _
  | case12 b h1 h2 h3 h4 h5 =>
    intro e h
    rw [run_err4_end1 h4 h5] at h
    injection h with h
    subst h
    exact Nat.zero_le _
  | case13 b h1 h2 h3 h4 h5 c1 hv =>
    intro e h
    rw [run_err4_end2 h4 h5 hv] at h
    injection h with h
    subst h
    exact Nat.zero_le _
  | case14 b h1 h2 h3 h4 h5 c1 hv c2 hc2 =>
    intro e h
    rw [run_err4_end3 h4 h5 hv hc2] at h
    injection h with h
    subst h
    exact Nat.zero_le _
  | case15 b h1 h2 h3 h4 h5 c1 hv c2 hc2 c3 rest hc3 ih =>
    intro e h
    rw [run_cons4 _ h4 h5 hv hc2 hc3, shiftErr_eq_error] at h
    obtain ⟨e2, he2, rfl⟩ := h
    have hle := ih e2 he2
    show 4 + e2.valid_up_to ≤ (b :: c1 :: c2 :: c3 :: rest).length
    simp only [List.length_cons]
    omega
  | case16 b h1 h2 h3 h4 h5 c1 hv c2 hc2 c3 rest hc3 =>
    intro e h
    rw [run_err4_bad3 _ h4 h5 hv hc2 hc3] at h
    injection h with h
    subst h
    exact Nat.zero_le _
  | case17 b h1 h2 h3 h4 h5 c1 hv c2 rest hc =>
    intro e h
    rw [run_err4_bad2 _ h4 h5 hv hc] at h
    injection h with h
    subst h
    exact Nat.zero_le _
  | case18 b h1 h2 h3 h4 h5 c1 rest hv =>
    intro e h
    rw [run_err4_bad1 _ h4 h5 hv] at h
    injection h with h
    subst h
    exact Nat.zero_le _
  | case19 b rest h1 h2 h3 h4 h5 =>
    intro e h
    rw [run_err_hi _ h5] at h
    injection h with h
    subst h
    exact Nat.zero_le _

/-- the bytes before the error offset reported by the validator form valid
UTF-8: `valid_up_to` really is the end of a valid prefix. -/
theorem error_take_valid (l : List Nat) :
    ∀ e : Utf8Error, run_utf8_validation l = .error e →
      run_utf8_validation (l.take e.valid_up_to) = .ok () := by
  induction l using run_utf8_validation.induct with
  | case1 =>
    intro e h
    simp [run_utf8_validation] at h
  | case2 b rest hb ih =>
    intro e h
    rw [run_cons1 _ hb, shiftErr_eq_error] at h
    obtain ⟨e2, he2, rfl⟩ := h
    show run_utf8_validation ((b :: rest).take (1 + e2.valid_up_to)) = .ok ()
    rw [Nat.add_comm 1 e2.valid_up_to, List.take_succ_cons, run_cons1 _ hb, shiftErr_eq_ok]
    exact ih e2 he2
  | case3 b rest h1 h2 =>
    intro e h
    rw [run_err_w0 _ h1 h2] at h
    injection h with h
    subst h
    rfl
  | case4 b h1 h2 h3 =>
    intro e h
    rw [run_err2_end h2 h3] at h
    injection h with h
    subst h
    rfl
  | case5 b h1 h2 h3 c1 rest hc ih =>
    intro e h
    rw [run_cons2 _ h2 h3 hc, shiftErr_eq_error] at h
    obtain ⟨e2, he2, rfl⟩ := h
    show run_utf8_validation ((b :: c1 :: rest).take (2 + e2.valid_up_to)) = .ok ()
    rw [show 2 + e2.valid_up_to = e2.valid_up_to + 1 + 1 by omega]
    rw [List.take_succ_cons, List.take_succ_cons, run_cons2 _ h2 h3 hc, shiftErr_eq_ok]
    exact ih e2 he2
  | case6 b h1 h2 h3 c1 rest hc =>
    intro e h
    rw [run_err2_bad _ h2 h3 hc] at h
    injection h with h
    subst h
    rfl
  | case7 b h1 h2 h3 h4 =>
    intro e h
    rw [run_err3_end1 h3 h4] at h
    injection h with h
    subst h
    rfl
  | case8 b h1 h2 h3 h4 c1 hv =>
    intro e h
    rw [run_err3_end2 h3 h4 hv] at h
    injection h with h
    subst h
    rfl
  | case9 b h1 h2 h3 h4 c1 hv c2 rest hc ih =>
    intro e h
    rw [run_cons3 _ h3 h4 hv hc, shiftErr_eq_error] at h
    obtain ⟨e2, he2, rfl⟩ := h
    show run_utf8_validation ((b :: c1 :: c2 :: rest).take (3 + e2.valid_up_to)) = .ok ()
    rw [show 3 + e2.valid_up_to = e2.valid_up_to + 1 + 1 + 1 by omega]
    rw [List.take_succ_cons, List.take_succ_cons, List.take_succ_cons,
      run_cons3 _ h3 h4 hv hc, shiftErr_eq_ok]
    exact ih e2 he2
  | case10 b h1 h2 h3 h4 c1 hv c2 rest hc =>
    intro e h
    rw [run_err3_bad2 _ h3 h4 hv hc] at h
    injection h with h
    subst h
    rfl
  | case11 b h1 h2 h3 h4 c1 rest hv =>
    intro e h
    rw [run_err3_bad1 _ h3 h4 hv] at h
    injection h with h
    subst h
    rfl
  | case12 b h1 h2 h3 h4 h5 =>
    intro e h
    rw [run_err4_end1 h4 h5] at h
    injection h with h
    subst h
    rfl
  | case13 b h1 h2 h3 h4 h5 c1 hv =>
    intro e h
    rw [run_err4_end2 h4 h5 hv] at h
    injection h with h
    subst h
    rfl
  | case14 b h1 h2 h3 h4 h5 c1 hv c2 hc2 =>
    intro e h
    rw [run_err4_end3 h4 h5 hv hc2] at h
    injection h with h
    subst h
    rfl
  | case15 b h1 h2 h3 h4 h5 c1 hv c2 hc2 c3 rest hc3 ih =>
    intro e h
    rw [run_cons4 _ h4 h5 hv hc2 hc3, shiftErr_eq_error] at h
    obtain ⟨e2, he2, rfl⟩ := h
    show run_utf8_validation ((b :: c1 :: c2 :: c3 :: rest).take (4 + e2.valid_up_to)) = .ok ()
    rw [show 4 + e2.valid_up_to = e2.valid_up_to + 1 + 1 + 1 + 1 by omega]
    rw [List.take_succ_cons, List.take_succ_cons, List.take_succ_cons, List.take_succ_cons,
      run_cons4 _ h4 h5 hv hc2 hc3, shiftErr_eq_ok]
    exact ih e2 he2
  | case16 b h1 h2 h3 h4 h5 c1 hv c2 hc2 c3 rest hc3 =>
    intro e h
    rw [run_err4_bad3 _ h4 h5 hv hc2 hc3] at h
    injection h with h
    subst h
    rfl
  | case17 b h1 h2 h3 h4 h5 c1 hv c2 rest hc =>
    intro e h
    rw [run_err4_bad2 _ h4 h5 hv hc] at h
    injection h with h
    subst h
    rfl
  | case18 b h1 h2 h3 h4 h5 c1 rest hv =>
    intro e h
    rw [run_err4_bad1 _ h4 h5 hv] at h
    injection h with h
    subst h
    rfl
  | case19 b rest h1 h2 h3 h4 h5 =>
    intro e h
    rw [run_err_hi _ h5] at h
    injection h with h
    subst h
    rfl

example : run_utf8_validation [97, 98, 99] = .ok () := rfl

example : run_utf8_validation [97, 0xC0, 99] = .error ⟨1, some 1⟩ := rfl

example : run_utf8_validation [0xC3, 0xA9] = .ok () := rfl

example : run_utf8_validation [0xC3] = .error ⟨0, none⟩ := rfl

example : run_utf8_validation [0xED, 0xA0, 0x80] = .error ⟨0, some 1⟩ := rfl

example : run_utf8_validation [0xF0, 0x9F, 0x92, 0x96] = .ok () := rfl

example :
    with_str_bytes [97, 98, 99] (fun s => TransformResult.ret (s.set 1 0xC0) (0 : Nat)) =
      (.invalidUtf8 1 (some 1), [97, 0, 0]) := rfl

example :
    with_str_bytes [97, 98, 99]
      (fun s => TransformResult.panicked (R := Nat) s "Oh no") =
      (.panicked "Oh no", [0, 0, 0]) := rfl

/-- C1: for every buffer initially holding valid UTF-8 and every
transformation that returns normally leaving the bytes valid,
`with_str_bytes` returns exactly the transformation's return value and the
buffer's final bytes equal exactly the bytes the transformation left in
the view, with no panic. -/
theorem claim_C1 {R : Type} (s : List Nat) (f : List Nat → TransformResult R)
    (bytes : List Nat) (r : R)
    (hs : run_utf8_validation s = .ok ())
    (hf : f s = .ret bytes r)
    (hv : run_utf8_validation bytes = .ok ()) :
    with_str_bytes s f = (.success r, bytes) := by
  simp [with_str_bytes, viewOf, hf, hv]

/-- C1 witness: `"a b"` with the space replaced by a dash, as in the
crate's doc example. -/
theorem claim_C1_witness :
    run_utf8_validation [97, 32, 98] = .ok () ∧
    (fun l : List Nat => TransformResult.ret (l.map fun b => if b = 32 then 45 else b) (7 : Nat))
      [97, 32, 98] = .ret [97, 45, 98] 7 ∧
    run_utf8_validation [97, 45, 98] = .ok () ∧
    with_str_bytes [97, 32, 98]
      (fun l : List Nat => TransformResult.ret (l.map fun b => if b = 32 then 45 else b) (7 : Nat)) =
      (.success 7, [97, 45, 98]) :=
  ⟨rfl, rfl, rfl, claim_C1 [97, 32, 98] _ [97, 45, 98] 7 rfl rfl rfl⟩

/-- C2: if the transformation returns normally but leaves bytes whose
first invalid sequence starts at offset `k`, the call panics reporting
offset `k` and the error length, the final bytes in `[0, k)` are what the
transformation wrote, the final bytes from `k` on are all zero, and the
prefix of length `k` of what the transformation wrote is itself valid
UTF-8 (so `k` really is the offset of the first invalid byte). -/
theorem claim_C2 {R : Type} (s : List Nat) (f : List Nat → TransformResult R)
    (bytes : List Nat) (r : R) (k : Nat) (el : Option Nat)
    (hf : f s = .ret bytes r)
    (hv : run_utf8_validation bytes = .error ⟨k, el⟩) :
    (with_str_bytes s f).1 = .invalidUtf8 k el ∧
    ((with_str_bytes s f).2).take k = bytes.take k ∧
    ((with_str_bytes s f).2).drop k = List.replicate (bytes.length - k) 0 ∧
    run_utf8_validation (bytes.take k) = .ok () := by
  have hk : k ≤ bytes.length := error_valid_up_to_le bytes ⟨k, el⟩ hv
  have hlen : (bytes.take k).length = k := by
    rw [List.length_take]
    omega
  have hout : with_str_bytes s f =
      (.invalidUtf8 k el, bytes.take k ++ List.replicate (bytes.length - k) 0) := by
    simp [with_str_bytes, viewOf, hf, hv]
  rw [hout]
  exact ⟨rfl, List.take_left' hlen, List.drop_left' hlen,
    error_take_valid bytes ⟨k, el⟩ hv⟩

/-- C2 witness: the crate's own test: `"abc"` with byte 1 set to `0xC0`
panics reporting index 1 and leaves `[97, 0, 0]`. -/
theorem claim_C2_witness :
    (fun l : List Nat => TransformResult.ret (l.set 1 0xC0) (3 : Nat)) [97, 98, 99] =
      .ret [97, 0xC0, 99] 3 ∧
    run_utf8_validation [97, 0xC0, 99] = .error ⟨1, some 1⟩ ∧
    (with_str_bytes [97, 98, 99]
      (fun l : List Nat => TransformResult.ret (l.set 1 0xC0) (3 : Nat))).1 =
      .invalidUtf8 1 (some 1) ∧
    (with_str_bytes [97, 98, 99]
      (fun l : List Nat => TransformResult.ret (l.set 1 0xC0) (3 : Nat))).2 = [97, 0, 0] :=
  ⟨rfl, rfl,
    (claim_C2 [97, 98, 99] _ [97, 0xC0, 99] 3 1 (some 1) rfl rfl).1, rfl⟩

/-- C3: if the transformation panics with payload `msg`, the panic that
propagates out of `with_str_bytes` is exactly `msg` (no invariant
violation is raised on top of it) and the final buffer is entirely
zero-filled. -/
theorem claim_C3 {R : Type} (s : List Nat) (f : List Nat → TransformResult R)
    (bytes : List Nat) (msg : String)
    (hf : f s = .panicked bytes msg) :
    with_str_bytes s f = (.panicked msg, List.replicate bytes.length 0) ∧
    ∀ b ∈ (with_str_bytes s f).2, b = 0 := by
  have h : with_str_bytes s f = (.panicked msg, List.replicate bytes.length 0) := by
    simp [with_str_bytes, viewOf, hf]
  refine ⟨h, ?_⟩
  rw [h]
  exact fun b hb => List.eq_of_mem_replicate hb

/-- C3 witness: the crate's own test: a transformation that panics with
`"Oh no"` on `"abc"` propagates `"Oh no"` and leaves `[0, 0, 0]`. -/
theorem claim_C3_witness :
    (fun l : List Nat => TransformResult.panicked (R := Nat) l "Oh no") [97, 98, 99] =
      .panicked [97, 98, 99] "Oh no" ∧
    with_str_bytes [97, 98, 99]
      (fun l : List Nat => TransformResult.panicked (R := Nat) l "Oh no") =
      (.panicked "Oh no", [0, 0, 0]) :=
  ⟨rfl, (claim_C3 [97, 98, 99] _ [97, 98, 99] "Oh no" rfl).1⟩

/-- C4: on every exit path of `with_str_bytes` — normal return, invariant
violation, or propagated panic — the final buffer bytes form valid UTF-8. -/
theorem claim_C4 {R : Type} (s : List Nat) (f : List Nat → TransformResult R) :
    run_utf8_validation (with_str_bytes s f).2 = .ok () := by
  cases hf : f (viewOf s) with
  | panicked bytes payload =>
    simp only [with_str_bytes, hf]
    exact replicate_zero_valid bytes.length
  | ret bytes value =>
    cases hv : run_utf8_validation bytes with
    | ok u =>
      cases u
      simp only [with_str_bytes, hf, hv]
    | error e =>
      simp only [with_str_bytes, hf, hv]
      exact valid_append (error_take_valid bytes e hv) (replicate_zero_valid _)

/-- C5: the invariant-violation panic is only ever raised from the
normal-completion branch of the guard — if the transformation panicked,
the call's outcome is exactly that panic — and no execution reaches a
successful return without the validation having run and passed on the
final bytes. -/
theorem claim_C5 {R : Type} (s : List Nat) (f : List Nat → TransformResult R) :
    match f (viewOf s) with
    | .panicked _ payload => (with_str_bytes s f).1 = .panicked payload
    | .ret bytes r =>
        (run_utf8_validation bytes = .ok () ∧ with_str_bytes s f = (.success r, bytes)) ∨
        (∃ e : Utf8Error, run_utf8_validation bytes = .error e ∧
          (with_str_bytes s f).1 = .invalidUtf8 e.valid_up_to e.error_len) := by
  cases hf : f (viewOf s) with
  | panicked bytes payload => simp [with_str_bytes, hf]
  | ret bytes r =>
    cases hv : run_utf8_validation bytes with
    | ok u =>
      cases u
      exact Or.inl ⟨hv, by simp [with_str_bytes, hf, hv]⟩
    | error e =>
      exact Or.inr ⟨e, hv, by simp [with_str_bytes, hf, hv]⟩

/-- C6: for every length-preserving transformation, the buffer's byte
length after the call equals its byte length before the call on every
exit path, and the view handed to the transformation has the buffer's
byte length. -/
theorem claim_C6 {R : Type} (s : List Nat) (f : List Nat → TransformResult R)
    (hf : LengthPreserving f) :
    (viewOf s).length = s.length ∧ (with_str_bytes s f).2.length = s.length := by
  refine ⟨rfl, ?_⟩
  have hfs := hf (viewOf s)
  cases h2 : f (viewOf s) with
  | panicked bytes payload =>
    rw [h2] at hfs
    have hlen : bytes.length = s.length := hfs
    simp only [with_str_bytes, h2, List.length_replicate]
    exact hlen
  | ret bytes value =>
    rw [h2] at hfs
    have hlen : bytes.length = s.length := hfs
    cases hv : run_utf8_validation bytes with
    | ok u =>
      cases u
      simp only [with_str_bytes, h2, hv]
      exact hlen
    | error e =>
      have hk : e.valid_up_to ≤ bytes.length := error_valid_up_to_le bytes e hv
      simp only [with_str_bytes, h2, hv, List.length_append, List.length_take,
        List.length_replicate]
      omega

/-- C6 witness: the identity transformation on `"a"`. -/
theorem claim_C6_witness :
    LengthPreserving (fun l : List Nat => TransformResult.ret l (0 : Nat)) ∧
    (with_str_bytes [97] (fun l : List Nat => TransformResult.ret l (0 : Nat))).2.length =
      [97].length :=
  ⟨fun _ => rfl, (claim_C6 [97] _ (fun _ => rfl)).2⟩

/-- C7: for every valid buffer and every transformation that returns
normally leaving the bytes byte-for-byte unchanged, the buffer after the
call is identical to the buffer before it and the outcome is the
transformation's return value, with no panic. -/
theorem claim_C7 {R : Type} (s : List Nat) (f : List Nat → TransformResult R) (r : R)
    (hs : run_utf8_validation s = .ok ())
    (hf : f s = .ret s r) :
    with_str_bytes s f = (.success r, s) := by
  simp [with_str_bytes, viewOf, hf, hs]

/-- C7 witness: the identity transformation on `"ab"`. -/
theorem claim_C7_witness :
    run_utf8_validation [97, 98] = .ok () ∧
    (fun l : List Nat => TransformResult.ret l (2 : Nat)) [97, 98] = .ret [97, 98] 2 ∧
    with_str_bytes [97, 98] (fun l : List Nat => TransformResult.ret l (2 : Nat)) =
      (.success 2, [97, 98]) :=
  ⟨rfl, rfl, claim_C7 [97, 98] _ 2 rfl rfl⟩

/-- the no-op transformation: returns normally and leaves the bytes as
they are. -/
def noopTransform : List Nat → TransformResult Unit := fun bytes => .ret bytes ()

/-- C8: on the empty buffer with a no-op transformation, `with_str_bytes`
returns without panic and the buffer remains empty. -/
theorem claim_C8 :
    with_str_bytes [] noopTransform = (.success (), []) := rfl

/-- C9: on a zero-length buffer the invariant-violation branch is
unreachable: every length-preserving transformation that returns normally
on the empty view yields a successful call with an empty buffer, and the
outcome is never an invariant violation. -/
theorem claim_C9 {R : Type} (f : List Nat → TransformResult R)
    (hf : LengthPreserving f) (bytes : List Nat) (r : R)
    (h : f [] = .ret bytes r) :
    with_str_bytes [] f = (.success r, []) ∧
    ∀ k el, (with_str_bytes [] f).1 ≠ Outcome.invalidUtf8 k el := by
  have hfs := hf []
  rw [h] at hfs
  have hb : bytes = [] := List.eq_nil_of_length_eq_zero hfs
  subst hb
  have hout : with_str_bytes [] f = (.success r, []) := by
    simp [with_str_bytes, viewOf, h, run_utf8_validation]
  refine ⟨hout, ?_⟩
  rw [hout]
  intro k el hcontra
  exact Outcome.noConfusion hcontra

/-- C9 witness: a transformation returning `5` on the empty buffer. -/
theorem claim_C9_witness :
    LengthPreserving (fun l : List Nat => TransformResult.ret l (5 : Nat)) ∧
    (fun l : List Nat => TransformResult.ret l (5 : Nat)) [] = .ret [] 5 ∧
    with_str_bytes [] (fun l : List Nat => TransformResult.ret l (5 : Nat)) =
      (.success 5, []) :=
  ⟨fun _ => rfl, rfl, (claim_C9 _ (fun _ => rfl) [] 5 rfl).1⟩

/-- C10: `with_str_bytes` is deterministic: identical initial bytes and
extensionally equal transformations produce identical outcomes and
identical final buffers. -/
theorem claim_C10 {R : Type} (s1 s2 : List Nat)
    (f1 f2 : List Nat → TransformResult R)
    (hs : s1 = s2) (hf : ∀ l, f1 l = f2 l) :
    with_str_bytes s1 f1 = with_str_bytes s2 f2 := by
  subst hs
  simp only [with_str_bytes, hf (viewOf s1)]

/-- C10 witness: two identical calls on `"a"`. -/
theorem claim_C10_witness :
    ([97] : List Nat) = [97] ∧
    (∀ l : List Nat,
      (fun l : List Nat => TransformResult.ret l (1 : Nat)) l =
        (fun l : List Nat => TransformResult.ret l (1 : Nat)) l) ∧
    with_str_bytes [97] (fun l : List Nat => TransformResult.ret l (1 : Nat)) =
      with_str_bytes [97] (fun l : List Nat => TransformResult.ret l (1 : Nat)) :=
  ⟨rfl, fun _ => rfl, claim_C10 [97] [97] _ _ rfl (fun _ => rfl)⟩

end WithStrBytes
